import Mathlib

/-!
The per-instrument watcher engine of discord-stock-ticker (`ticker.go`).

A shallow embedding of `ticker.go`.  The two watchers `watchStockPrice` and
`watchCryptoPrice` are embedded as pure functions from the answers of the
external collaborators (chat platform, price providers, cache) to the list of
calls the watcher issues and to its next runtime state.

Modelling conventions

* A Go `float64` is modelled by its exact rational value (`ℚ`); products and
  quotients are exact, and NaN, the infinities and negative zero have no
  counterpart.  Decimal literals of the source (`0.01`, `0.00001`, ...) are the
  corresponding rationals.
* A Go `int` is modelled by `Int`; counts and indices that the code never makes
  negative are `Nat`.
* `itrSeed` is a `float64` in the source that only ever holds the integers
  `0, 1, 2, ...` (it starts at `0.0`, is incremented by one, and is reset to
  `0.0`); it is modelled by a `Nat`, and `math.Mod(itrSeed, 2.0) == 1.0` by
  `itrSeed % 2 = 1`.
* A run-time panic (an index out of range) is the `none` result of a step.
* Logging is not modelled.
-/

set_option autoImplicit false
set_option linter.dupNamespace false

namespace DiscordStockTicker

/-! ## Library functions used by `ticker.go` -/

/-- Nearest integer to `num / den`, a tie going to the even neighbour: the
rounding `strconv` applies to the exact value of a `float64`. -/
def roundHalfEven (num den : Nat) : Nat :=
  let q := num / den
  let r := num % den
  if 2 * r < den then q
  else if den < 2 * r then q + 1
  else if q % 2 = 0 then q
  else q + 1

/-- The last `prec` decimal digits of `n`, most significant first. -/
def fracDigits (n : Nat) : Nat → List Char
  | 0 => []
  | prec + 1 => fracDigits (n / 10) prec ++ [Nat.digitChar (n % 10)]

/-- The characters of `fmt.Sprintf("%.<prec>f", x)`: an optional minus sign
(kept when a negative value rounds to zero), the integer part, and, when
`prec > 0`, a point followed by exactly `prec` digits. -/
def sprintfFloatChars (prec : Nat) (x : ℚ) : List Char :=
  let n := roundHalfEven (x.num.natAbs * 10 ^ prec) x.den
  let sign := if x < 0 then ['-'] else []
  let int := Nat.toDigits 10 (n / 10 ^ prec)
  if prec = 0 then sign ++ int
  else sign ++ int ++ ['.'] ++ fracDigits n prec

/-- The string `fmt.Sprintf("%.<prec>f", x)`. -/
def sprintfFloat (prec : Nat) (x : ℚ) : String :=
  String.mk (sprintfFloatChars prec x)

/-- The string `fmt.Sprintf("%d", i)`. -/
def sprintfInt (i : Int) : String :=
  toString i

/-- Whether `pre` is a prefix of `cs`. -/
def hasPrefixChars : List Char → List Char → Bool
  | [], _ => true
  | _ :: _, [] => false
  | p :: pre, c :: cs => p = c && hasPrefixChars pre cs

/-- Whether `sub` occurs in `cs`. -/
def containsChars (sub : List Char) : List Char → Bool
  | [] => hasPrefixChars sub []
  | c :: cs => hasPrefixChars sub (c :: cs) || containsChars sub cs

/-- The function `strings.Contains`. -/
def stringsContains (s substr : String) : Bool :=
  containsChars substr.data s.data

/-- The function `strings.ToUpper` (on the ASCII letters). -/
def stringsToUpper (s : String) : String :=
  s.toUpper

/-- The function `strings.ToLower` (on the ASCII letters). -/
def stringsToLower (s : String) : String :=
  s.toLower

/-- The function `strings.Split`. -/
def stringsSplit (s sep : String) : List String :=
  s.splitOn sep

/-- The function `strings.TrimSuffix`. -/
def stringsTrimSuffix (s suffix : String) : String :=
  if suffix.data.isSuffixOf s.data then
    String.mk (s.data.take (s.data.length - suffix.data.length))
  else s

/-! ## Data model -/

/-- The struct `Ticker`: the configuration of one watcher, of which the watcher
itself rewrites `Nickname`, `Frequency`, `Exrate` and `Decorator`.  The channel
`Close` is the `close` event of the polling loop. -/
structure Ticker where
  Ticker : String
  Name : String
  Nickname : Bool
  Frequency : Int
  Color : Bool
  Decorator : String
  Currency : String
  CurrencySymbol : String
  Decimals : Int
  Activity : String
  Pair : String
  PairFlip : Bool
  Multiplier : Int
  ClientID : String
  Crypto : Bool
  Token : String
  TwelveDataKey : String
  Exrate : ℚ
deriving DecidableEq

/-- The fields of `utils.GeckoPriceResults` read by `ticker.go`: `Symbol`,
`MarketData.CurrentPrice.USD`, `MarketData.PriceChangeCurrency.USD` and
`MarketData.PriceChangePercent`. -/
structure GeckoPriceResults where
  Symbol : String
  CurrentPriceUSD : ℚ
  PriceChangeCurrencyUSD : ℚ
  PriceChangePercent : ℚ
deriving DecidableEq

/-- The fields `ID` and `Name` of a `discordgo.UserGuild`. -/
structure Guild where
  ID : String
  Name : String
deriving DecidableEq

/-- The struct `discordgo.Activity`, as filled by `newUpdateStatusData` (`Typ`
is its field `Type`). -/
structure Activity where
  Name : String
  Typ : Nat
  URL : String
deriving DecidableEq

/-- The struct `discordgo.UpdateStatusData`, as filled by
`newUpdateStatusData`. -/
structure UpdateStatusData where
  IdleSince : Option Int
  Activities : List Activity
  Status : String
deriving DecidableEq

/-- The constant `discordgo.ActivityTypeWatching`. -/
def ActivityTypeWatching : Nat := 3

/-- The function `newUpdateStatusData`. -/
def newUpdateStatusData (idle : Int) (activityType : Nat) (name url : String) :
    UpdateStatusData :=
  let usd : UpdateStatusData := { IdleSince := none, Activities := [], Status := "online" }
  let usd := if idle > 0 then { usd with IdleSince := some idle } else usd
  let usd :=
    if name ≠ "" then
      { usd with Activities := [{ Name := name, Typ := activityType, URL := url }] }
    else usd
  usd

/-- The method `Ticker.label` (the cut at 32 bytes is a cut at 32
characters). -/
def Ticker.label (s : DiscordStockTicker.Ticker) : String :=
  let label :=
    if s.Crypto then stringsToLower (s.Name ++ "-" ++ s.Currency)
    else stringsToLower (s.Ticker ++ "-" ++ s.Currency)
  if label.length > 32 then label.take 32 else label

/-- The process-wide counters `cacheHits`, `cacheMisses`, `rateLimited` and
`updateError`. -/
structure Metrics where
  cacheHits : Nat
  cacheMisses : Nat
  rateLimited : Nat
  updateError : Nat
deriving DecidableEq

/-- The calls a watcher issues to its collaborators, in the order it issues
them.  `session := none` is the primary session `dg`, `some i` is shard `i`. -/
inductive Call where
  | lastUpdateSetZero (ticker : String)
  | dgOpen
  | shardOpen (i : Nat)
  | shardClose (i : Nat)
  | userGuilds
  | getStockPrice (symbol : String)
  | getTimeSeries (symbol interval key : String)
  | setName (label : String)
  | getCryptoPrice (name : String)
  | getCryptoPriceCache (name : String)
  | guildMemberNickname (guildID nickname : String)
  | lastUpdateSetToCurrentTime (ticker guild : String)
  | setRole (clientID guildID : String) (increase : Bool)
  | updateStatusComplex (session : Option Nat) (data : UpdateStatusData)
  | updateGameStatus (shard : Nat) (activity : String)
  | sleep (seconds : Int)
deriving DecidableEq

/-! ## The custom activity rotation (`ticker.go` 280-295 and 601-616) -/

/-- The two loop variables `itr` and `itrSeed` of a watcher. -/
structure Rotator where
  itr : Nat
  itrSeed : Nat
deriving DecidableEq, Repr

/-- The values `itr := 0`, `itrSeed := 0.0` the variables are declared with. -/
def Rotator.reset : Rotator := ⟨0, 0⟩

/-- The block `// Custom activity messages` of both watchers: given the list
`custom_activity`, the loop variables and the activity string computed by the
tick, the activity string that is displayed and the new loop variables.
`none` is the index-out-of-range panic of `custom_activity[itr]`. -/
def rotate (custom_activity : List String) (r : Rotator) (activity : String) :
    Option (String × Rotator) :=
  if custom_activity.length > 0 then
    -- Display the real activity once per cycle
    if r.itr = custom_activity.length then
      some (activity, ⟨0, 0⟩)
    else if r.itrSeed % 2 = 1 then
      match custom_activity[r.itr]? with
      | some a => some (a, ⟨r.itr + 1, r.itrSeed + 1⟩)
      | none => none
    else
      match custom_activity[r.itr]? with
      | some a => some (a, ⟨r.itr, r.itrSeed + 1⟩)
      | none => none
  else
    some (activity, r)

/-- The first `t` successive passes through the rotation block, starting from
the declared values; `real i` is the activity string computed by pass `i`.
Returns the strings displayed, in order, and the loop variables reached. -/
def rotateRun (custom_activity : List String) (real : Nat → String) :
    Nat → Option (List String × Rotator)
  | 0 => some ([], Rotator.reset)
  | t + 1 =>
    match rotateRun custom_activity real t with
    | none => none
    | some (shown, r) =>
      match rotate custom_activity r (real t) with
      | none => none
      | some (a, r') => some (shown ++ [a], r')

/-! ## `watchCryptoPrice`: one pass of the polling loop (`ticker.go` 442-650) -/

/-- The variables a watcher holds while it polls: the (rewritten)
configuration `s`, the guilds fetched at start, the number of shards, and the
locals `arrows`, `custom_activity`, `itr` and `itrSeed`. -/
structure Watcher where
  s : Ticker
  guilds : List Guild
  shards : Nat
  arrows : Bool
  custom_activity : List String
  rot : Rotator
deriving DecidableEq

/-- The answers of the collaborators to the calls of one pass of the crypto
loop: the primary price fetch, the pair price fetch, the error (if any) of
`GuildMemberNickname` for each guild ID and of the status update for each
shard. -/
structure CryptoAnswers where
  price : Except String GeckoPriceResults
  pairPrice : Except String GeckoPriceResults
  nickname : String → Option String
  status : Nat → Option String

/-- The price fetch of lines 451-454 and 545-549: direct when the cache `rdb`
is absent, through the cache otherwise. -/
def cryptoFetchCall (rdb : Bool) (name : String) : Call :=
  if rdb then Call.getCryptoPriceCache name else Call.getCryptoPrice name

/-- Lines 455-459: with a cache, a failed primary fetch counts as a miss and a
successful one as a hit. -/
def countCache (rdb : Bool) (failed : Bool) (m : Metrics) : Metrics :=
  if rdb then
    if failed then { m with cacheMisses := m.cacheMisses + 1 }
    else { m with cacheHits := m.cacheHits + 1 }
  else m

/-- Lines 463-467: the counter of a failed primary fetch. -/
def countFetchError (err : String) (m : Metrics) : Metrics :=
  if stringsContains err "rate limited" then { m with rateLimited := m.rateLimited + 1 }
  else { m with updateError := m.updateError + 1 }

/-- Lines 471-475, `// Check if conversion is needed`. -/
def convert (exrate : ℚ) (priceData : GeckoPriceResults) : GeckoPriceResults :=
  if exrate > 1 then
    { priceData with
      CurrentPriceUSD := exrate * priceData.CurrentPriceUSD
      PriceChangeCurrencyUSD := exrate * priceData.PriceChangeCurrencyUSD }
  else priceData

/-- Lines 481-499: the string `fmtPrice`, and `priceData` as the block leaves
it (a price below one cent is overwritten by its value in cents). -/
def formatPrice (decimals : Int) (priceData : GeckoPriceResults) :
    String × GeckoPriceResults :=
  -- Check for custom decimal places
  if decimals ≥ 0 ∧ decimals ≤ 13 then
    (sprintfFloat decimals.toNat priceData.CurrentPriceUSD, priceData)
  else
    -- Check for cryptos below 1c
    if priceData.CurrentPriceUSD < 1 / 100 then
      let priceData := { priceData with CurrentPriceUSD := priceData.CurrentPriceUSD * 100 }
      if priceData.CurrentPriceUSD < 1 / 100000 then
        (sprintfFloat 8 priceData.CurrentPriceUSD ++ "¢", priceData)
      else
        (sprintfFloat 6 priceData.CurrentPriceUSD ++ "¢", priceData)
    else if priceData.CurrentPriceUSD < 1 then
      (sprintfFloat 3 priceData.CurrentPriceUSD, priceData)
    else
      (sprintfFloat 2 priceData.CurrentPriceUSD, priceData)

/-- Lines 218-226 and 501-509, `// calculate if price has moved up or down`.
The source compares the first byte of the string, as a string, with `"-"`;
in UTF-8 that holds exactly when the first character is `-`. -/
def increaseOf (fmtChange : String) : Bool :=
  if fmtChange.data.length = 0 then true
  else if fmtChange.data.head? = some '-' then false
  else true

/-- Lines 228-231 and 511-514, `// add plus sign to diff percentage`. -/
def addPlus (percent : ℚ) (fmtDiffPercent : String) : String :=
  if percent ≥ 5 / 10000 then "+" ++ fmtDiffPercent else fmtDiffPercent

/-- Lines 237-242 and 516-522, `// set arrows based on movement`. -/
def setArrows (arrows increase : Bool) (s : Ticker) : Ticker :=
  if arrows then
    let s := { s with Decorator := "⬊" }
    if increase then { s with Decorator := "⬈" } else s
  else s

/-- Lines 555-571: the ratio of the two current prices and its label, in the
order chosen by `PairFlip`, rendered with 4 or 2 decimals.  (A quotient by a
zero price, infinite or NaN in the source, is `0` here.) -/
def pairActivity (pairFlip : Bool) (displayName : String)
    (priceData pairPriceData : GeckoPriceResults) : String :=
  let pair : ℚ × String :=
    if pairFlip then
      (pairPriceData.CurrentPriceUSD / priceData.CurrentPriceUSD,
        stringsToUpper pairPriceData.Symbol ++ "/" ++ displayName)
    else
      (priceData.CurrentPriceUSD / pairPriceData.CurrentPriceUSD,
        displayName ++ "/" ++ stringsToUpper pairPriceData.Symbol)
  -- format decimals
  if pair.1 < 1 / 10 then sprintfFloat 4 pair.1 ++ " " ++ pair.2
  else sprintfFloat 2 pair.1 ++ " " ++ pair.2

/-- Lines 261-278 and 583-599, `// Update nickname in guilds`; `metric` is the
`ticker` label of the gauge (`s.Ticker` for equities, `s.Name` for crypto). -/
def nicknameCalls (s : Ticker) (metric : String) (answer : String → Option String)
    (nickname : String) (increase : Bool) : List Guild → List Call
  | [] => []
  | g :: gs =>
    (match answer g.ID with
      | some _ => [Call.guildMemberNickname g.ID nickname]
      | none =>
        [Call.guildMemberNickname g.ID nickname,
          Call.lastUpdateSetToCurrentTime metric g.Name] ++
        (if s.Color then [Call.setRole s.ClientID g.ID increase] else [])) ++
    nicknameCalls s metric answer nickname increase gs

/-- Lines 618-630, `// set activity`: the status update of every shard in
nickname mode. -/
def shardStatusCalls (name : String) (answer : Nat → Option String) (activity : String) :
    List Nat → List Call
  | [] => []
  | i :: rest =>
    (match answer i with
      | some _ =>
        [Call.updateStatusComplex (some i)
          (newUpdateStatusData 0 ActivityTypeWatching activity "")]
      | none =>
        [Call.updateStatusComplex (some i)
          (newUpdateStatusData 0 ActivityTypeWatching activity ""),
          Call.lastUpdateSetToCurrentTime name "None"]) ++
    shardStatusCalls name answer activity rest

/-- Lines 638-648: the status update of every shard outside nickname mode. -/
def shardGameStatusCalls (name : String) (answer : Nat → Option String) (activity : String) :
    List Nat → List Call
  | [] => []
  | i :: rest =>
    (match answer i with
      | some _ => [Call.updateGameStatus i activity]
      | none =>
        [Call.updateGameStatus i activity, Call.lastUpdateSetToCurrentTime name "None"]) ++
    shardGameStatusCalls name answer activity rest

/-- Lines 540-580, `// format activity` of nickname mode: the pair fetch issued
(if any) and the activity string. -/
def cryptoActivity (rdb : Bool) (s : Ticker) (pairAnswer : Except String GeckoPriceResults)
    (displayName fmtDiffPercent : String) (priceData : GeckoPriceResults) :
    List Call × String :=
  if s.Pair ≠ "" then
    -- get price of target pair
    match pairAnswer with
    | Except.error _ => ([cryptoFetchCall rdb s.Pair], fmtDiffPercent ++ "%")
    | Except.ok pairPriceData =>
      ([cryptoFetchCall rdb s.Pair], pairActivity s.PairFlip displayName priceData pairPriceData)
  else
    if |priceData.PriceChangeCurrencyUSD| < 1 / 100 then
      ([], fmtDiffPercent ++ " % | " ++ stringsToUpper priceData.Symbol ++
        stringsToUpper s.Currency)
    else
      ([], fmtDiffPercent ++ " % | " ++ stringsToUpper priceData.Symbol ++
        stringsToUpper s.Currency)

/-- Lines 477-650: what a pass does with `priceData` once the conversion of
lines 471-475 is done, up to the end of the pass. -/
def cryptoRender (rdb : Bool) (ans : CryptoAnswers) (w : Watcher) (m : Metrics)
    (priceData : GeckoPriceResults) : Option (Watcher × Metrics × List Call) :=
  let fetch := [cryptoFetchCall rdb w.s.Name]
  -- format the price changes
  let fmtDiffPercent := sprintfFloat 2 priceData.PriceChangePercent
  let fmtChange := sprintfFloat 2 priceData.PriceChangeCurrencyUSD
  -- Check for custom decimal places
  let fmtPrice := (formatPrice w.s.Decimals priceData).1
  let priceData := (formatPrice w.s.Decimals priceData).2
  -- calculate if price has moved up or down
  let increase := increaseOf fmtChange
  -- add plus sign to diff percentage
  let fmtDiffPercent := addPlus priceData.PriceChangePercent fmtDiffPercent
  -- set arrows based on movement
  let s := setArrows w.arrows increase w.s
  -- update nickname instead of activity
  if s.Nickname then
    -- override coin symbol
    let displayName := if s.Ticker ≠ "" then s.Ticker else stringsToUpper priceData.Symbol
    -- format nickname, looks like "0.059741 USD"
    let nickname := fmtPrice ++ " " ++ stringsToUpper s.Currency
    -- format activity
    let act := cryptoActivity rdb s ans.pairPrice displayName fmtDiffPercent priceData
    -- Update nickname in guilds
    let nick := nicknameCalls s s.Name ans.nickname nickname increase w.guilds
    -- Custom activity messages
    match rotate w.custom_activity w.rot act.2 with
    | none => none
    | some (activity, rot) =>
      some ({ w with s := s, rot := rot }, m,
        fetch ++ act.1 ++ nick ++
          shardStatusCalls s.Name ans.status activity (List.range w.shards) ++
          [Call.sleep s.Frequency])
  else
    -- format activity
    let activity := fmtPrice ++ " " ++ s.Decorator ++ " " ++ fmtDiffPercent ++ "%"
    some ({ w with s := s }, m,
      fetch ++ shardGameStatusCalls s.Name ans.status activity (List.range w.shards))

/-- One pass of the `case <-ticker.C:` branch of `watchCryptoPrice`: the
watcher and the counters after the pass, and the calls issued, in order.
`rdb` tells whether the cache is configured; `none` is a panic. -/
def cryptoTick (rdb : Bool) (ans : CryptoAnswers) (w : Watcher) (m : Metrics) :
    Option (Watcher × Metrics × List Call) :=
  -- get the coin price data
  match ans.price with
  | Except.error err =>
    some (w, countFetchError err (countCache rdb true m), [cryptoFetchCall rdb w.s.Name])
  | Except.ok priceData =>
    -- Check if conversion is needed
    cryptoRender rdb ans w (countCache rdb false m) (convert w.s.Exrate priceData)

/-! ## `watchCryptoPrice`: start and polling loop (`ticker.go` 320-441) -/

/-- The answers of the collaborators to the calls `watchCryptoPrice` makes
before it polls: the error (if any) of `discordgo.New` for the primary session,
the shard count of `GatewayBot` or its error, the error of `discordgo.New` and
of `Open` for each shard, the result of `UserGuilds`, the command-line values
`*frequency` and `*managed`, and the answer of `GetStockPrice` for the
exchange rate (the `RegularMarketPrice.Raw` of each result). -/
structure CryptoStart where
  newSession : Option String
  gatewayBot : Except String Nat
  newShard : Nat → Option String
  shardOpen : Nat → Option String
  userGuilds : List Guild × Option String
  frequency : Int
  managed : Bool
  exData : Except String (List ℚ)

/-- Lines 391-407, `// If other currency, get rate`: the fetch issued (if any)
and the configuration with `Exrate` as the block leaves it. -/
def cryptoExrate (s : Ticker) (exData : Except String (List ℚ)) : List Call × Ticker :=
  if s.Currency ≠ "USD" then
    match exData with
    | Except.error _ => ([Call.getStockPrice (s.Currency ++ "=X")], s)
    | Except.ok results =>
      match results with
      | raw :: _ =>
        ([Call.getStockPrice (s.Currency ++ "=X")], { s with Exrate := raw * (s.Multiplier : ℚ) })
      | [] =>
        ([Call.getStockPrice (s.Currency ++ "=X")], { s with Exrate := (s.Multiplier : ℚ) })
  else
    ([], { s with Exrate := (s.Multiplier : ℚ) })

/-- Lines 415-426, `// Grab custom activity messages`. -/
def cryptoCustomActivity (s : Ticker) : List String :=
  if s.Activity ≠ "" then
    let custom_activity := stringsSplit s.Activity ";"
    if s.Multiplier ≠ 1 then
      custom_activity ++ ["x" ++ sprintfInt s.Multiplier ++ " " ++ s.Name]
    else custom_activity
  else if s.Multiplier > 1 then
    ["x" ++ sprintfInt s.Multiplier ++ " " ++ stringsToUpper s.Name]
  else []

/-- Lines 320-434 of `watchCryptoPrice`, up to the creation of the timer: the
calls issued and, unless the function has returned, the watcher that enters
the polling loop. -/
def cryptoStart (s : Ticker) (env : CryptoStart) : List Call × Option Watcher :=
  -- create a new discord session using the provided bot token.
  match env.newSession with
  | some _ => ([Call.lastUpdateSetZero s.Name], none)
  | none =>
    -- get shards
    match env.gatewayBot with
    | Except.error _ => ([Call.lastUpdateSetZero s.Name], none)
    | Except.ok shards =>
      -- shard into sessions.
      if (List.range shards).any (fun i => (env.newShard i).isSome) then
        ([Call.lastUpdateSetZero s.Name], none)
      else
        -- open ws connections
        let opened := (List.range shards).map Call.shardOpen
        let errOpen := (List.range shards).any (fun i => (env.shardOpen i).isSome)
        let closed := if errOpen then (List.range shards).map Call.shardClose else []
        -- Get guides for bot
        let s := if env.userGuilds.2.isSome then { s with Nickname := false } else s
        -- check for frequency override
        let s := if env.frequency ≠ 0 then { s with Frequency := env.frequency } else s
        -- If other currency, get rate
        let rate := cryptoExrate s env.exData
        let s := rate.2
        -- Set arrows if no custom decorator
        let arrows := if s.Decorator = "" then true else false
        -- perform management operations
        let named := if env.managed then [Call.setName s.label] else []
        (opened ++ closed ++ [Call.userGuilds] ++ rate.1 ++ named,
          some
            { s := s
              guilds := env.userGuilds.1
              shards := shards
              arrows := arrows
              custom_activity := cryptoCustomActivity s
              rot := Rotator.reset })

/-- What the `select` of the polling loop receives: the close signal, or a
timer fire together with the answers the collaborators give in that pass. -/
inductive CryptoEvent where
  | close
  | tick (ans : CryptoAnswers)

/-- The `for { select { ... } }` of `watchCryptoPrice` over the given events:
the counters and the calls issued, in order.  The loop returns at the close
signal; `none` is a panic. -/
def cryptoLoop (rdb : Bool) : List CryptoEvent → Watcher → Metrics →
    Option (Metrics × List Call)
  | [], _, m => some (m, [])
  | CryptoEvent.close :: _, _, m => some (m, [])
  | CryptoEvent.tick ans :: rest, w, m =>
    match cryptoTick rdb ans w m with
    | none => none
    | some (w, m, calls) =>
      match cryptoLoop rdb rest w m with
      | none => none
      | some (m, later) => some (m, calls ++ later)

/-- The function `watchCryptoPrice`: the counters and the calls issued when
the loop receives the given events. -/
def watchCryptoPrice (rdb : Bool) (s : Ticker) (env : CryptoStart)
    (events : List CryptoEvent) (m : Metrics) : Option (Metrics × List Call) :=
  match cryptoStart s env with
  | (calls, none) => some (m, calls)
  | (calls, some w) =>
    match cryptoLoop rdb events w m with
    | none => none
    | some (m, later) => some (m, calls ++ later)

/-! ## `watchStockPrice` (`ticker.go` 54-318) -/

/-- The fields `Open` and `Close` of an entry of `Values` in the answer of
`utils.GetTimeSeries`. -/
structure TimeSeriesValue where
  Open : String
  Close : String
deriving DecidableEq

/-- A provider value with its number `Raw` and its text `Fmt`. -/
structure RawFmt where
  Raw : ℚ
  Fmt : String
deriving DecidableEq

/-- The fields of `QuoteSummary.Results[i].Price` in the answer of
`utils.GetStockPrice` read by `ticker.go`. -/
structure StockPrice where
  RegularMarketPrice : RawFmt
  MarketState : String
  PostMarketChangePercent : RawFmt
  PostMarketChange : RawFmt
  PreMarketChangePercent : RawFmt
  PreMarketChange : RawFmt
  RegularMarketChangePercent : RawFmt
  RegularMarketChange : RawFmt
deriving DecidableEq

/-- The answers of the collaborators to the calls of one pass of the equities
loop: the minute and the day series (their `Values`), `strconv.ParseFloat`,
the quote summary (the `Price` of each result), the error (if any) of
`GuildMemberNickname` for each guild ID and of `UpdateStatusComplex`. -/
structure StockAnswers where
  minute : Except String (List TimeSeriesValue)
  day : Except String (List TimeSeriesValue)
  parseFloat : String → Except String ℚ
  quote : Except String (List StockPrice)
  nickname : String → Option String
  status : Option String

/-- The locals `fmtPrice`, `fmtDiffPercent`, `diffPercent`, `fmtDiffChange` and
`marketState` of a pass once the price source has been read. -/
structure StockQuote where
  fmtPrice : String
  fmtDiffPercent : String
  diffPercent : ℚ
  fmtDiffChange : String
  marketState : String
deriving DecidableEq

/-- How the reading of a price source ends: the pass goes on with a quote, the
pass is skipped (`continue`), or the watcher panics. -/
inductive Fetched where
  | quote (q : StockQuote)
  | skip
  | panic
deriving DecidableEq

/-- Lines 138-177, `// use twelve data as source`: the calls issued and how the
reading ends.  (A quotient by a zero `closeRaw`, infinite or NaN in the source,
is `0` here.) -/
def twelveDataQuote (s : Ticker) (ans : StockAnswers) : List Call × Fetched :=
  let minuteCall := Call.getTimeSeries s.Ticker "min" s.TwelveDataKey
  let dayCall := Call.getTimeSeries s.Ticker "day" s.TwelveDataKey
  match ans.minute with
  | Except.error _ => ([minuteCall], Fetched.skip)
  | Except.ok minuteValues =>
    match minuteValues[0]? with
    | none => ([minuteCall], Fetched.skip)
    | some first =>
      let fmtPrice := first.Close
      match ans.day with
      | Except.error _ => ([minuteCall, dayCall], Fetched.skip)
      | Except.ok dayValues =>
        if dayValues.length = 0 then ([minuteCall, dayCall], Fetched.skip)
        else
          match ans.parseFloat fmtPrice with
          | Except.error _ => ([minuteCall, dayCall], Fetched.skip)
          | Except.ok nowRaw =>
            match dayValues[1]? with
            | none => ([minuteCall, dayCall], Fetched.panic)
            | some second =>
              match ans.parseFloat second.Close with
              | Except.error _ => ([minuteCall, dayCall], Fetched.skip)
              | Except.ok closeRaw =>
                let fmtDiff := nowRaw - closeRaw
                let diffPercent := (fmtDiff / closeRaw) * 100
                ([minuteCall, dayCall],
                  Fetched.quote
                    { fmtPrice := fmtPrice
                      fmtDiffPercent := sprintfFloat 2 diffPercent ++ "%"
                      diffPercent := diffPercent
                      fmtDiffChange := sprintfFloat 2 fmtDiff
                      marketState := "" })

/-- Lines 179-215, `// use yahoo as source`. -/
def yahooQuote (s : Ticker) (ans : StockAnswers) : List Call × Fetched :=
  match ans.quote with
  | Except.error _ => ([Call.getStockPrice s.Ticker], Fetched.skip)
  | Except.ok results =>
    match results[0]? with
    | none => ([Call.getStockPrice s.Ticker], Fetched.skip)
    | some price =>
      let fmtPrice := price.RegularMarketPrice.Fmt
      -- Check if conversion is needed
      let fmtPrice :=
        if s.Exrate ≠ 0 then sprintfFloat 2 (s.Exrate * price.RegularMarketPrice.Raw)
        else fmtPrice
      let marketState := price.MarketState
      -- check for day or after hours change
      if marketState = "POST" then
        ([Call.getStockPrice s.Ticker],
          Fetched.quote
            { fmtPrice := fmtPrice
              fmtDiffPercent := price.PostMarketChangePercent.Fmt
              diffPercent := price.PostMarketChangePercent.Raw
              fmtDiffChange := price.PostMarketChange.Fmt
              marketState := marketState })
      else if marketState = "PRE" then
        ([Call.getStockPrice s.Ticker],
          Fetched.quote
            { fmtPrice := fmtPrice
              fmtDiffPercent := price.PreMarketChangePercent.Fmt
              diffPercent := price.PreMarketChangePercent.Raw
              fmtDiffChange := price.PreMarketChange.Fmt
              marketState := marketState })
      else
        ([Call.getStockPrice s.Ticker],
          Fetched.quote
            { fmtPrice := fmtPrice
              fmtDiffPercent := price.RegularMarketChangePercent.Fmt
              diffPercent := price.RegularMarketChangePercent.Raw
              fmtDiffChange := price.RegularMarketChange.Fmt
              marketState := marketState })

/-- Lines 297-302 and 306-312: the one status update of an equities pass;
`gauge` tells whether a success sets the `lastUpdate` gauge. -/
def stockStatusCalls (s : Ticker) (answer : Option String) (activity : String)
    (gauge : Bool) : List Call :=
  match answer with
  | some _ =>
    [Call.updateStatusComplex none (newUpdateStatusData 0 ActivityTypeWatching activity "")]
  | none =>
    [Call.updateStatusComplex none (newUpdateStatusData 0 ActivityTypeWatching activity "")] ++
      (if gauge then [Call.lastUpdateSetToCurrentTime s.Ticker "None"] else [])

/-- One pass of the `case <-ticker.C:` branch of `watchStockPrice`: the watcher
after the pass and the calls issued, in order; `none` is a panic. -/
def stockTick (ans : StockAnswers) (w : Watcher) : Option (Watcher × List Call) :=
  let fetched := if w.s.TwelveDataKey ≠ "" then twelveDataQuote w.s ans else yahooQuote w.s ans
  match fetched.2 with
  | Fetched.panic => none
  | Fetched.skip => some (w, fetched.1)
  | Fetched.quote q =>
    -- calculate if price has moved up or down
    let increase := increaseOf q.fmtDiffChange
    -- add plus sign to diff percentage
    let fmtDiffPercent := addPlus q.diffPercent q.fmtDiffPercent
    -- removes the '%' in the end (e.g., 1.1% becomes 1.1)
    let fmtDiffPercent := stringsTrimSuffix fmtDiffPercent "%"
    let s := setArrows w.arrows increase w.s
    if s.Nickname then
      -- format nickname, looks like "201.75 USD"
      let nickname := q.fmtPrice ++ " " ++ stringsToUpper s.Currency
      -- format activity, looks like "+0.82 % | TSLA"
      let activity :=
        if q.marketState.data.length > 0 then
          fmtDiffPercent ++ " % | " ++ stringsToUpper (stringsToUpper s.Name) ++
            " (" ++ q.marketState ++ ")"
        else
          fmtDiffPercent ++ " % | " ++ stringsToUpper (stringsToUpper s.Name)
      -- Update nickname in guilds
      let nick := nicknameCalls s s.Ticker ans.nickname nickname increase w.guilds
      -- Custom activity messages
      match rotate w.custom_activity w.rot activity with
      | none => none
      | some (activity, rot) =>
        some ({ w with s := s, rot := rot },
          fetched.1 ++ nick ++ stockStatusCalls s ans.status activity false ++
            [Call.sleep s.Frequency])
    else
      let activity := q.fmtPrice ++ " " ++ s.Decorator ++ " " ++ fmtDiffPercent
      some ({ w with s := s },
        fetched.1 ++ stockStatusCalls s ans.status activity true ++ [Call.sleep s.Frequency])

/-- The answers of the collaborators to the calls `watchStockPrice` makes
before it polls: the error (if any) of `discordgo.New` and of `Open`, the
result of `UserGuilds`, the command-line values `*frequency` and `*managed`,
and the answer of `GetStockPrice` for the exchange rate. -/
structure StockStart where
  newSession : Option String
  dgOpen : Option String
  userGuilds : List Guild × Option String
  frequency : Int
  managed : Bool
  exData : Except String (List ℚ)

/-- Lines 87-99, `// If other currency, get rate`, of `watchStockPrice`. -/
def stockExrate (s : Ticker) (exData : Except String (List ℚ)) : List Call × Ticker :=
  if s.Currency ≠ "USD" then
    match exData with
    | Except.error _ => ([Call.getStockPrice (s.Currency ++ "=X")], s)
    | Except.ok results =>
      match results with
      | raw :: _ =>
        ([Call.getStockPrice (s.Currency ++ "=X")], { s with Exrate := raw * (s.Multiplier : ℚ) })
      | [] => ([Call.getStockPrice (s.Currency ++ "=X")], s)
  else ([], s)

/-- Lines 54-121 of `watchStockPrice`, up to the creation of the timer. -/
def stockStart (s : Ticker) (env : StockStart) : List Call × Option Watcher :=
  -- create a new discord session using the provided bot token.
  match env.newSession with
  | some _ => ([Call.lastUpdateSetZero s.Ticker], none)
  | none =>
    -- show as online
    match env.dgOpen with
    | some _ => ([Call.dgOpen, Call.lastUpdateSetZero s.Ticker], none)
    | none =>
      -- Get guides for bot
      let s := if env.userGuilds.2.isSome then { s with Nickname := false } else s
      let s := if env.userGuilds.1.length = 0 then { s with Nickname := false } else s
      -- check for frequency override
      let s := if env.frequency ≠ 0 then { s with Frequency := env.frequency } else s
      -- If other currency, get rate
      let rate := stockExrate s env.exData
      let s := rate.2
      -- Set arrows if no custom decorator
      let arrows := if s.Decorator = "" then true else false
      -- Grab custom activity messages
      let custom_activity := if s.Activity ≠ "" then stringsSplit s.Activity ";" else []
      -- perform management operations
      let named := if env.managed then [Call.setName s.label] else []
      ([Call.dgOpen, Call.userGuilds] ++ rate.1 ++ named,
        some
          { s := s
            guilds := env.userGuilds.1
            shards := 0
            arrows := arrows
            custom_activity := custom_activity
            rot := Rotator.reset })

/-- What the `select` of the equities loop receives. -/
inductive StockEvent where
  | close
  | tick (ans : StockAnswers)

/-- The `for { select { ... } }` of `watchStockPrice` over the given events:
the calls issued, in order; `none` is a panic. -/
def stockLoop : List StockEvent → Watcher → Option (List Call)
  | [], _ => some []
  | StockEvent.close :: _, _ => some []
  | StockEvent.tick ans :: rest, w =>
    match stockTick ans w with
    | none => none
    | some (w, calls) =>
      match stockLoop rest w with
      | none => none
      | some later => some (calls ++ later)

/-- The function `watchStockPrice`: the calls issued when the loop receives
the given events. -/
def watchStockPrice (s : Ticker) (env : StockStart) (events : List StockEvent) :
    Option (List Call) :=
  match stockStart s env with
  | (calls, none) => some calls
  | (calls, some w) =>
    match stockLoop events w with
    | none => none
    | some later => some (calls ++ later)

/-! ## Vocabulary of the statements -/

/-- Each message twice, in order: `[a, b]` becomes `[a, a, b, b]`. -/
def twice : List String → List String
  | [] => []
  | a :: rest => a :: a :: twice rest

/-! ## Sample inputs -/

/-- A crypto watcher configuration: nickname mode, no decimals override, no
custom decorator, no custom activity, no pair, currency USD, multiplier 1. -/
def sampleTicker : Ticker :=
  { Ticker := ""
    Name := "bitcoin"
    Nickname := true
    Frequency := 10
    Color := false
    Decorator := ""
    Currency := "USD"
    CurrencySymbol := ""
    Decimals := -1
    Activity := ""
    Pair := ""
    PairFlip := false
    Multiplier := 1
    ClientID := "client"
    Crypto := true
    Token := "token"
    TwelveDataKey := ""
    Exrate := 1 }

/-- A polling watcher of `sampleTicker`: one guild, one shard, arrows on. -/
def sampleWatcher : Watcher :=
  { s := sampleTicker
    guilds := [⟨"1", "guild"⟩]
    shards := 1
    arrows := true
    custom_activity := []
    rot := Rotator.reset }

/-- Answers of a pass in which the primary fetch gives `price`, the pair fetch
gives `pairPrice` and every platform call succeeds. -/
def sampleAnswers (price pairPrice : Except String GeckoPriceResults) : CryptoAnswers :=
  { price := price
    pairPrice := pairPrice
    nickname := fun _ => none
    status := fun _ => none }

/-- Start answers in which every call succeeds: `shards` shards, one guild, no
command-line override, and an exchange rate of 9/10. -/
def sampleStart (shards : Nat) : CryptoStart :=
  { newSession := none
    gatewayBot := Except.ok shards
    newShard := fun _ => none
    shardOpen := fun _ => none
    userGuilds := ([⟨"1", "guild"⟩], none)
    frequency := 0
    managed := false
    exData := Except.ok [9 / 10] }

/-- All counters at zero. -/
def zeroMetrics : Metrics := ⟨0, 0, 0, 0⟩

/-- An equities watcher configuration that reads the time-series provider:
status mode, no custom decorator, no custom activity. -/
def sampleStockTicker : Ticker :=
  { sampleTicker with
    Ticker := "TSLA"
    Name := "tesla"
    Nickname := false
    Crypto := false
    TwelveDataKey := "key" }

/-- A polling watcher of `sampleStockTicker`. -/
def sampleStockWatcher : Watcher :=
  { s := sampleStockTicker
    guilds := []
    shards := 0
    arrows := true
    custom_activity := []
    rot := Rotator.reset }

/-- The answers of `strconv.ParseFloat` on the texts of the samples. -/
def sampleParseFloat (text : String) : Except String ℚ :=
  if text = "201.75" then Except.ok (20175 / 100)
  else if text = "200.00" then Except.ok 200
  else Except.error "invalid syntax"

/-- Answers of an equities pass in which the time-series provider gives the
minute values `minute` and the day values `day` and every other call
succeeds. -/
def sampleStockAnswers (minute day : List TimeSeriesValue) : StockAnswers :=
  { minute := Except.ok minute
    day := Except.ok day
    parseFloat := sampleParseFloat
    quote := Except.error ""
    nickname := fun _ => none
    status := none }

/-- Start answers of an equities watcher in which every call succeeds: no
guild, no command-line override. -/
def sampleStockStart : StockStart :=
  { newSession := none
    dgOpen := none
    userGuilds := ([], none)
    frequency := 0
    managed := false
    exData := Except.ok [] }

/-! ## Theorems -/

/-! ### The library functions -/

theorem digitChar_isDigit (d : Nat) (h : d < 10) : (Nat.digitChar d).isDigit = true := by
  interval_cases d <;> rfl

theorem fracDigits_length (n prec : Nat) : (fracDigits n prec).length = prec := by
  induction prec generalizing n with
  | zero => rfl
  | succ k ih => simp [fracDigits, ih]

theorem fracDigits_isDigit (n prec : Nat) :
    ∀ c ∈ fracDigits n prec, c.isDigit = true := by
  induction prec generalizing n with
  | zero => intro c hc; simp [fracDigits] at hc
  | succ k ih =>
    intro c hc
    simp only [fracDigits, List.mem_append, List.mem_singleton] at hc
    rcases hc with hc | hc
    · exact ih _ c hc
    · rw [hc]; exact digitChar_isDigit _ (Nat.mod_lt _ (by norm_num))

theorem toDigitsCore_isDigit (fuel n : Nat) (ds : List Char)
    (hds : ∀ c ∈ ds, c.isDigit = true) :
    ∀ c ∈ Nat.toDigitsCore 10 fuel n ds, c.isDigit = true := by
  induction fuel generalizing n ds with
  | zero => simpa [Nat.toDigitsCore] using hds
  | succ k ih =>
    have hcons : ∀ c ∈ Nat.digitChar (n % 10) :: ds, c.isDigit = true := by
      intro c hc
      rcases List.mem_cons.mp hc with hc | hc
      · rw [hc]; exact digitChar_isDigit _ (Nat.mod_lt _ (by norm_num))
      · exact hds c hc
    simp only [Nat.toDigitsCore]
    split_ifs
    · exact hcons
    · exact ih _ _ hcons

theorem toDigits_isDigit (n : Nat) : ∀ c ∈ Nat.toDigits 10 n, c.isDigit = true := by
  unfold Nat.toDigits
  exact toDigitsCore_isDigit _ _ _ (by simp)

/-- The shape of `fmt.Sprintf("%.<prec>f", x)` for `prec > 0`: sign, integer
digits, a point, and exactly `prec` digits. -/
theorem sprintfFloatChars_shape (prec : Nat) (x : ℚ) (hp : 0 < prec) :
    ∃ int frac,
      sprintfFloatChars prec x = (if x < 0 then ['-'] else []) ++ int ++ ['.'] ++ frac ∧
      (∀ c ∈ int, c.isDigit = true) ∧
      frac.length = prec ∧ (∀ c ∈ frac, c.isDigit = true) := by
  refine ⟨Nat.toDigits 10 (roundHalfEven (x.num.natAbs * 10 ^ prec) x.den / 10 ^ prec),
    fracDigits (roundHalfEven (x.num.natAbs * 10 ^ prec) x.den) prec, ?_,
    toDigits_isDigit _, fracDigits_length _ _, fracDigits_isDigit _ _⟩
  have hp' : prec ≠ 0 := by omega
  simp only [sprintfFloatChars, hp', if_false]

/-- The rounding is to a nearest integer: twice the distance between
`roundHalfEven num den` and `num / den` is at most one. -/
theorem roundHalfEven_nearest (num den : Nat) (hden : 0 < den) :
    2 * (den * roundHalfEven num den) ≤ 2 * num + den ∧
    2 * num ≤ 2 * (den * roundHalfEven num den) + den := by
  have hdm : den * (num / den) + num % den = num := Nat.div_add_mod num den
  have hlt : num % den < den := Nat.mod_lt _ hden
  unfold roundHalfEven
  simp only
  split_ifs <;> (try simp only [Nat.mul_add, Nat.mul_one]) <;> omega

/-! ### The custom activity rotation -/

theorem succ_mod_cycle (t P : Nat) (hP : 0 < P) :
    (t + 1) % P = if t % P + 1 = P then 0 else t % P + 1 := by
  have hlt : t % P < P := Nat.mod_lt _ hP
  have hdm : P * (t / P) + t % P = t := Nat.div_add_mod t P
  split_ifs with h
  · have : t + 1 = P * (t / P + 1) := by
      rw [Nat.mul_add, Nat.mul_one]; omega
    rw [this]; exact Nat.mul_mod_right _ _
  · have h1 : t % P + 1 < P := by omega
    have : t + 1 = (t % P + 1) + P * (t / P) := by omega
    rw [this, Nat.add_mul_mod_self_left]
    exact Nat.mod_eq_of_lt h1

theorem rotate_at (m : List String) (hm : m ≠ []) (k : Nat) (hk : k ≤ 2 * m.length)
    (a : String) :
    rotate m ⟨k / 2, k⟩ a =
      some (if k < 2 * m.length then m.getD (k / 2) a else a,
        ⟨(if k + 1 = 2 * m.length + 1 then 0 else k + 1) / 2,
          if k + 1 = 2 * m.length + 1 then 0 else k + 1⟩) := by
  have hpos : 0 < m.length := List.length_pos.mpr hm
  unfold rotate
  simp only [gt_iff_lt, hpos, if_true]
  by_cases hend : k / 2 = m.length
  · have hk2 : k = 2 * m.length := by omega
    simp [hk2]
  · have hlt : k / 2 < m.length := by omega
    have hk2 : k < 2 * m.length := by omega
    have hne : ¬ (k + 1 = 2 * m.length + 1) := by omega
    simp only [hend, if_false, hk2, if_true, hne, List.getElem?_eq_getElem hlt,
      List.getD_eq_getElem?_getD, Option.getD_some]
    by_cases hodd : k % 2 = 1
    · simp only [hodd, if_true]
      congr 3; omega
    · simp only [hodd, if_false]
      congr 3; omega

theorem twice_length (m : List String) : (twice m).length = 2 * m.length := by
  induction m with
  | nil => rfl
  | cons a rest ih => simp only [twice, List.length_cons, ih]; omega

theorem twice_getElem? (m : List String) (i : Nat) : (twice m)[i]? = m[i / 2]? := by
  induction m generalizing i with
  | nil => simp [twice]
  | cons a rest ih =>
    match i with
    | 0 => simp [twice]
    | 1 => simp [twice]
    | j + 2 =>
      have h : (j + 2) / 2 = j / 2 + 1 := by omega
      simp only [twice, List.getElem?_cons_succ, h, ih]

theorem rotateRun_spec (m : List String) (hm : m ≠ []) (real : Nat → String) (t : Nat) :
    ∃ shown : List String,
      rotateRun m real t =
        some (shown, ⟨t % (2 * m.length + 1) / 2, t % (2 * m.length + 1)⟩) ∧
      shown.length = t ∧
      ∀ i, i < t → shown[i]? =
        if i % (2 * m.length + 1) = 2 * m.length then some (real i)
        else m[i % (2 * m.length + 1) / 2]? := by
  induction t with
  | zero =>
    refine ⟨[], ?_, rfl, ?_⟩
    · simp [rotateRun, Rotator.reset]
    · intro i hi; omega
  | succ t ih =>
    obtain ⟨shown, hrun, hlen, hshown⟩ := ih
    have hk : t % (2 * m.length + 1) ≤ 2 * m.length := by
      have := Nat.mod_lt t (show 0 < 2 * m.length + 1 by omega)
      omega
    have hstep := rotate_at m hm (t % (2 * m.length + 1)) hk (real t)
    have hmod := succ_mod_cycle t (2 * m.length + 1) (by omega)
    refine ⟨shown ++ [if t % (2 * m.length + 1) < 2 * m.length
        then m.getD (t % (2 * m.length + 1) / 2) (real t) else real t], ?_, ?_, ?_⟩
    · simp only [rotateRun, hrun, hstep, hmod]
    · simp [hlen]
    · intro i hi
      by_cases hit : i < t
      · rw [List.getElem?_append_left (by omega)]
        exact hshown i hit
      · have hie : i = t := by omega
        subst hie
        rw [List.getElem?_append_right (by omega)]
        simp only [hlen, Nat.sub_self, List.getElem?_cons_zero]
        by_cases hend : i % (2 * m.length + 1) = 2 * m.length
        · simp [hend]
        · have hlt : i % (2 * m.length + 1) < 2 * m.length := by omega
          have hidx : i % (2 * m.length + 1) / 2 < m.length := by omega
          simp only [hlt, if_true, hend, if_false, List.getD_eq_getElem?_getD,
            List.getElem?_eq_getElem hidx, Option.getD_some]

/-- C1: for a non-empty custom-message list `m` of length `n`, the first
`2n+1` passes from the reset state display `m[0], m[0], ..., m[n-1], m[n-1]`
and then the real activity, and end in the reset state; over any number of
passes no index is out of range, the cursor stays at most `n`, pass `i`
displays entry `i mod (2n+1)` of that pattern, and the state is the reset state
after every multiple of `2n+1` passes. -/
theorem rotator_double_display_cadence (m : List String) (hm : m ≠ [])
    (real : Nat → String) :
    rotateRun m real (2 * m.length + 1) =
      some (twice m ++ [real (2 * m.length)], Rotator.reset) ∧
    ∀ t, ∃ shown r,
      rotateRun m real t = some (shown, r) ∧
      shown.length = t ∧
      r.itr ≤ m.length ∧
      (t % (2 * m.length + 1) = 0 → r = Rotator.reset) ∧
      ∀ i, i < t → shown[i]? = (twice m ++ [real i])[i % (2 * m.length + 1)]? := by
  have hpat : ∀ (a : String) (k : Nat), k ≤ 2 * m.length →
      (twice m ++ [a])[k]? = if k = 2 * m.length then some a else m[k / 2]? := by
    intro a k hk
    by_cases hend : k = 2 * m.length
    · rw [List.getElem?_append_right (by rw [twice_length]; omega)]
      simp [hend, twice_length]
    · rw [List.getElem?_append_left (by rw [twice_length]; omega), twice_getElem?]
      simp [hend]
  constructor
  · obtain ⟨shown, hrun, hlen, hshown⟩ := rotateRun_spec m hm real (2 * m.length + 1)
    have hstate : (2 * m.length + 1) % (2 * m.length + 1) = 0 := Nat.mod_self _
    rw [hrun, hstate]
    have hlist : shown = twice m ++ [real (2 * m.length)] := by
      apply List.ext_getElem?
      intro i
      by_cases hi : i < 2 * m.length + 1
      · rw [hshown i hi, Nat.mod_eq_of_lt hi, hpat _ i (by omega)]
        by_cases hend : i = 2 * m.length
        · simp [hend]
        · simp [hend]
      · rw [List.getElem?_eq_none (by omega), List.getElem?_eq_none]
        simp only [List.length_append, twice_length, List.length_singleton]
        omega
    rw [hlist]
    rfl
  · intro t
    obtain ⟨shown, hrun, hlen, hshown⟩ := rotateRun_spec m hm real t
    have hk : t % (2 * m.length + 1) < 2 * m.length + 1 := Nat.mod_lt _ (by omega)
    refine ⟨shown, _, hrun, hlen, ?_, ?_, ?_⟩
    · show t % (2 * m.length + 1) / 2 ≤ m.length
      omega
    · intro h0
      rw [h0]
      rfl
    · intro i hi
      have hik : i % (2 * m.length + 1) < 2 * m.length + 1 := Nat.mod_lt _ (by omega)
      rw [hshown i hi, hpat _ _ (by omega)]

/-- Witness of C1 on the two-message list of the specification. -/
theorem rotator_double_display_cadence_witness :
    (["a", "b"] : List String) ≠ [] ∧
    (rotateRun ["a", "b"] (fun _ => "real") (2 * ["a", "b"].length + 1) =
      some (twice ["a", "b"] ++ [(fun _ => "real") (2 * ["a", "b"].length)], Rotator.reset) ∧
    ∀ t, ∃ shown r,
      rotateRun ["a", "b"] (fun _ => "real") t = some (shown, r) ∧
      shown.length = t ∧
      r.itr ≤ ["a", "b"].length ∧
      (t % (2 * ["a", "b"].length + 1) = 0 → r = Rotator.reset) ∧
      ∀ i, i < t → shown[i]? =
        (twice ["a", "b"] ++ [(fun _ => "real") i])[i % (2 * ["a", "b"].length + 1)]?) :=
  ⟨by decide, rotator_double_display_cadence ["a", "b"] (by decide) (fun _ => "real")⟩

/-- C10 as stated fails: from cursor 0 and even parity 0 on a two-message list
the step shows `list[0]` and leaves the cursor at 0; it does not move it to 1. -/
theorem rotate_even_parity_counterexample :
    (["a", "b"] : List String) ≠ [] ∧
    (0 : Nat) ≠ ["a", "b"].length ∧
    (0 : Nat) % 2 = 0 ∧
    rotate ["a", "b"] ⟨0, 0⟩ "real" = some ("a", ⟨0, 1⟩) ∧
    rotate ["a", "b"] ⟨0, 0⟩ "real" ≠ some ("a", ⟨0 + 1, 0 + 1⟩) := by
  decide

/-- C10, amended: with a non-empty list and a cursor different from the list
length, an even-parity step shows `list[cursor]` and increments the parity
only; an odd-parity step shows `list[cursor]` and increments both the cursor
and the parity.  (Where the cursor is beyond the list, `list[cursor]` does not
exist and the step panics.) -/
theorem rotate_step_by_parity (m : List String) (r : Rotator) (activity : String)
    (hm : m ≠ []) (hne : r.itr ≠ m.length) :
    (r.itrSeed % 2 = 0 → rotate m r activity =
      (m[r.itr]?).map (fun a => (a, ⟨r.itr, r.itrSeed + 1⟩))) ∧
    (r.itrSeed % 2 = 1 → rotate m r activity =
      (m[r.itr]?).map (fun a => (a, ⟨r.itr + 1, r.itrSeed + 1⟩))) := by
  have hpos : 0 < m.length := List.length_pos.mpr hm
  constructor
  · intro hpar
    have hodd : ¬ (r.itrSeed % 2 = 1) := by omega
    simp only [rotate, gt_iff_lt, hpos, if_true, hne, if_false, hodd]
    cases m[r.itr]? <;> rfl
  · intro hpar
    simp only [rotate, gt_iff_lt, hpos, if_true, hne, if_false, hpar]
    cases m[r.itr]? <;> rfl

/-- Witness of the amended C10 on a two-message list at cursor 1: an even step
(parity 2) and an odd step (parity 3). -/
theorem rotate_step_by_parity_witness :
    rotate ["a", "b"] ⟨1, 2⟩ "real" =
      ((["a", "b"] : List String)[1]?).map (fun a => (a, ⟨1, 2 + 1⟩)) ∧
    rotate ["a", "b"] ⟨1, 3⟩ "real" =
      ((["a", "b"] : List String)[1]?).map (fun a => (a, ⟨1 + 1, 3 + 1⟩)) :=
  ⟨(rotate_step_by_parity ["a", "b"] ⟨1, 2⟩ "real" (by decide) (by decide)).1 (by decide),
    (rotate_step_by_parity ["a", "b"] ⟨1, 3⟩ "real" (by decide) (by decide)).2 (by decide)⟩

/-! ### Formatting of the crypto price -/

/-- C2: on the crypto path with no decimals override in effect (`Decimals`
outside 0..13), the price string of an adjusted quote with price `p` is
`p * 100` with the cent glyph, at 8 decimals when `p * 100 < 0.00001` and at 6
otherwise, when `p < 0.01`; it is `p` at 3 decimals when `0.01 ≤ p < 1`, and `p`
at 2 decimals otherwise.  So 0.004 shows as `0.400000¢`, 0.5 as `0.500` and
5.0 as `5.00`.  A value at `d > 0` decimals is a sign, integer digits, a point
and exactly `d` digits. -/
theorem crypto_price_decimals_without_override (decimals : Int) (exrate : ℚ)
    (raw : GeckoPriceResults) (hno : ¬ (0 ≤ decimals ∧ decimals ≤ 13)) :
    ((convert exrate raw).CurrentPriceUSD < 1 / 100 →
      (formatPrice decimals (convert exrate raw)).1 =
        if (convert exrate raw).CurrentPriceUSD * 100 < 1 / 100000 then
          sprintfFloat 8 ((convert exrate raw).CurrentPriceUSD * 100) ++ "¢"
        else sprintfFloat 6 ((convert exrate raw).CurrentPriceUSD * 100) ++ "¢") ∧
    (¬ (convert exrate raw).CurrentPriceUSD < 1 / 100 →
      (convert exrate raw).CurrentPriceUSD < 1 →
      (formatPrice decimals (convert exrate raw)).1 =
        sprintfFloat 3 (convert exrate raw).CurrentPriceUSD) ∧
    (¬ (convert exrate raw).CurrentPriceUSD < 1 / 100 →
      ¬ (convert exrate raw).CurrentPriceUSD < 1 →
      (formatPrice decimals (convert exrate raw)).1 =
        sprintfFloat 2 (convert exrate raw).CurrentPriceUSD) ∧
    (formatPrice decimals ⟨raw.Symbol, 4 / 1000, 0, 0⟩).1 = "0.400000¢" ∧
    (formatPrice decimals ⟨raw.Symbol, 1 / 2, 0, 0⟩).1 = "0.500" ∧
    (formatPrice decimals ⟨raw.Symbol, 5, 0, 0⟩).1 = "5.00" ∧
    (∀ (prec : Nat) (x : ℚ), 0 < prec →
      ∃ int frac,
        (sprintfFloat prec x).data = (if x < 0 then ['-'] else []) ++ int ++ ['.'] ++ frac ∧
        (∀ c ∈ int, c.isDigit = true) ∧
        frac.length = prec ∧ (∀ c ∈ frac, c.isDigit = true)) := by
  have hno' : ¬ (decimals ≥ 0 ∧ decimals ≤ 13) := hno
  refine ⟨?_, ?_, ?_, ?_, ?_, ?_, fun prec x hp => sprintfFloatChars_shape prec x hp⟩
  · intro h
    by_cases h8 : (convert exrate raw).CurrentPriceUSD * 100 < 1 / 100000
    · simp only [formatPrice, hno', if_false, h, if_true, h8]
    · simp only [formatPrice, hno', if_false, h, if_true, h8]
  · intro h h1
    simp only [formatPrice, hno', if_false, h, h1, if_true]
  · intro h h1
    simp only [formatPrice, hno', if_false, h, h1]
  · have h1 : (4 / 1000 : ℚ) < 1 / 100 := by norm_num
    have h2 : ¬ ((4 / 1000 : ℚ) * 100 < 1 / 100000) := by norm_num
    simp only [formatPrice, hno', if_false, h1, if_true, h2]
    decide!
  · have h1 : ¬ ((1 / 2 : ℚ) < 1 / 100) := by norm_num
    have h2 : (1 / 2 : ℚ) < 1 := by norm_num
    simp only [formatPrice, hno', if_false, h1, h2, if_true]
    decide!
  · have h1 : ¬ ((5 : ℚ) < 1 / 100) := by norm_num
    have h2 : ¬ ((5 : ℚ) < 1) := by norm_num
    simp only [formatPrice, hno', if_false, h1, h2]
    decide!

/-- C2 witness: no override (`Decimals = -1`), no multiplier, price 0.004. -/
theorem crypto_price_decimals_without_override_witness :
    ¬ ((0 : Int) ≤ -1 ∧ (-1 : Int) ≤ 13) ∧
    (formatPrice (-1) (convert 0 ⟨"doge", 4 / 1000, 0, 0⟩)).1 =
      sprintfFloat 6 ((convert 0 ⟨"doge", 4 / 1000, 0, 0⟩).CurrentPriceUSD * 100) ++ "¢" := by
  refine ⟨by decide, ?_⟩
  have h := (crypto_price_decimals_without_override (-1) 0 ⟨"doge", 4 / 1000, 0, 0⟩
    (by decide)).1
  have hc : convert 0 ⟨"doge", 4 / 1000, 0, 0⟩ = ⟨"doge", 4 / 1000, 0, 0⟩ := by
    simp [convert]
  rw [hc] at h ⊢
  rw [h (by norm_num)]
  have h2 : ¬ ((4 / 1000 : ℚ) * 100 < 1 / 100000) := by norm_num
  simp only [h2, if_false]

/-- C3 as stated fails: with the multiplier 0 (currency USD, no multiplier
configured) and with the multiplier 1/2 (an exchange rate below 1) a quote of
price 10 and change 2 is formatted as it came, not multiplied. -/
theorem convert_multiplier_counterexample :
    (convert 0 ⟨"btc", 10, 2, 0⟩).CurrentPriceUSD = 10 ∧
    (convert 0 ⟨"btc", 10, 2, 0⟩).CurrentPriceUSD ≠ 0 * 10 ∧
    (convert (1 / 2) ⟨"btc", 10, 2, 0⟩).CurrentPriceUSD = 10 ∧
    (convert (1 / 2) ⟨"btc", 10, 2, 0⟩).CurrentPriceUSD ≠ 1 / 2 * 10 ∧
    (convert (1 / 2) ⟨"btc", 10, 2, 0⟩).PriceChangeCurrencyUSD ≠ 1 / 2 * 2 := by
  have h0 : ¬ ((0 : ℚ) > 1) := by norm_num
  have h2 : ¬ ((1 / 2 : ℚ) > 1) := by norm_num
  simp only [convert, h0, h2, if_false]
  norm_num

/-- C3, amended: a pass whose primary fetch answers `raw` under a multiplier
`x > 1` is the rest of the pass run on `raw` with its current price and its
change both multiplied by `x`; under the multiplier 0 or 1 it is the rest of
the pass run on `raw` itself. -/
theorem crypto_tick_applies_multiplier (rdb : Bool) (ans : CryptoAnswers) (w : Watcher)
    (m : Metrics) (raw : GeckoPriceResults) (hans : ans.price = Except.ok raw) :
    (1 < w.s.Exrate →
      cryptoTick rdb ans w m =
        cryptoRender rdb ans w (countCache rdb false m)
          { raw with
            CurrentPriceUSD := w.s.Exrate * raw.CurrentPriceUSD
            PriceChangeCurrencyUSD := w.s.Exrate * raw.PriceChangeCurrencyUSD }) ∧
    (w.s.Exrate = 0 ∨ w.s.Exrate = 1 →
      cryptoTick rdb ans w m = cryptoRender rdb ans w (countCache rdb false m) raw) := by
  constructor
  · intro hx
    have hx' : w.s.Exrate > 1 := hx
    simp only [cryptoTick, hans, convert, hx', if_true]
  · intro hx
    have hx' : ¬ (w.s.Exrate > 1) := by
      rcases hx with h | h <;> rw [h] <;> norm_num
    simp only [cryptoTick, hans, convert, hx', if_false]

/-- C3 witness: multiplier 2 on a quote of price 10 and change 2. -/
theorem crypto_tick_applies_multiplier_witness :
    cryptoTick false (sampleAnswers (Except.ok ⟨"btc", 10, 2, 0⟩) (Except.error ""))
        { sampleWatcher with s := { sampleTicker with Exrate := 2 } } zeroMetrics =
      cryptoRender false (sampleAnswers (Except.ok ⟨"btc", 10, 2, 0⟩) (Except.error ""))
        { sampleWatcher with s := { sampleTicker with Exrate := 2 } }
        (countCache false false zeroMetrics)
        { Symbol := "btc"
          CurrentPriceUSD := 2 * 10
          PriceChangeCurrencyUSD := 2 * 2
          PriceChangePercent := 0 } :=
  (crypto_tick_applies_multiplier false
    (sampleAnswers (Except.ok ⟨"btc", 10, 2, 0⟩) (Except.error ""))
    { sampleWatcher with s := { sampleTicker with Exrate := 2 } } zeroMetrics
    ⟨"btc", 10, 2, 0⟩ rfl).1 (by norm_num)

/-- C4 as stated fails: without override the price 0.0000003 is 0.00003 cents,
which is not below 0.00001, and is shown with 6 decimals, not 8. -/
theorem tiny_price_counterexample :
    ¬ ((0 : Int) ≤ -1 ∧ (-1 : Int) ≤ 13) ∧
    (formatPrice (-1) ⟨"shib", 3 / 10000000, 0, 0⟩).1 = "0.000030¢" ∧
    (formatPrice (-1) ⟨"shib", 3 / 10000000, 0, 0⟩).1 ≠
      sprintfFloat 8 (3 / 10000000 * 100) ++ "¢" := by
  decide!

/-- C4, amended: on the crypto path with no decimals override in effect, the
price 0.0000003 is rendered cent-scaled with 6 decimals, as `0.000030¢`. -/
theorem tiny_price_six_decimals (decimals : Int) (symbol : String) (change percent : ℚ)
    (hno : ¬ (0 ≤ decimals ∧ decimals ≤ 13)) :
    (formatPrice decimals ⟨symbol, 3 / 10000000, change, percent⟩).1 =
      sprintfFloat 6 (3 / 10000000 * 100) ++ "¢" ∧
    sprintfFloat 6 (3 / 10000000 * 100) ++ "¢" = "0.000030¢" := by
  have hno' : ¬ (decimals ≥ 0 ∧ decimals ≤ 13) := hno
  have h1 : (3 / 10000000 : ℚ) < 1 / 100 := by norm_num
  have h2 : ¬ ((3 / 10000000 : ℚ) * 100 < 1 / 100000) := by norm_num
  constructor
  · simp only [formatPrice, hno', if_false, h1, if_true, h2]
  · decide!

/-- Witness of the amended C4 with `Decimals = 14`. -/
theorem tiny_price_six_decimals_witness :
    ¬ ((0 : Int) ≤ 14 ∧ (14 : Int) ≤ 13) ∧
    (formatPrice 14 ⟨"shib", 3 / 10000000, 0, 0⟩).1 =
      sprintfFloat 6 (3 / 10000000 * 100) ++ "¢" ∧
    sprintfFloat 6 (3 / 10000000 * 100) ++ "¢" = "0.000030¢" :=
  ⟨by decide, tiny_price_six_decimals 14 "shib" 0 0 (by decide)⟩

/-! ### Start of the crypto watcher -/

/-- C5 at its failing input: currency EUR, multiplier 5, stored rate 0, and an
exchange-rate fetch that returns an error.  The stored rate stays 0 and the
watcher enters the polling loop; on an empty result, and with currency USD,
the rate is the multiplier 5. -/
theorem crypto_exrate_fetch_error_evaluation :
    (cryptoExrate { sampleTicker with Currency := "EUR", Multiplier := 5, Exrate := 0 }
      (Except.error "timeout")).2.Exrate = 0 ∧
    (((5 : Int) : ℚ) ≠ 0) ∧
    ((cryptoStart { sampleTicker with Currency := "EUR", Multiplier := 5, Exrate := 0 }
      { sampleStart 1 with exData := Except.error "timeout" }).2.map
        (fun w => w.s.Exrate)) = some 0 ∧
    (cryptoExrate { sampleTicker with Currency := "EUR", Multiplier := 5, Exrate := 0 }
      (Except.ok [])).2.Exrate = ((5 : Int) : ℚ) ∧
    cryptoExrate { sampleTicker with Currency := "USD", Multiplier := 5, Exrate := 0 }
      (Except.error "timeout") =
        ([], { sampleTicker with Currency := "USD", Multiplier := 5, Exrate := ((5 : Int) : ℚ) }) := by
  decide!

/-- C6 at its failing input: two shards, the second of which fails to open.
Both shards are closed, and the watcher goes on: it enters the polling loop
and, at the first timer fire, fetches the price and updates nickname and
status on the closed shards. -/
theorem crypto_shard_open_failure_evaluation :
    watchCryptoPrice false sampleTicker
      { sampleStart 2 with
        shardOpen := fun i => if i = 1 then some "websocket: bad handshake" else none }
      [CryptoEvent.tick (sampleAnswers (Except.ok ⟨"btc", 50000, 100, 1⟩) (Except.error ""))]
      zeroMetrics =
    some (zeroMetrics,
      [Call.shardOpen 0, Call.shardOpen 1, Call.shardClose 0, Call.shardClose 1,
        Call.userGuilds,
        Call.getCryptoPrice "bitcoin",
        Call.guildMemberNickname "1" "50000.00 USD",
        Call.lastUpdateSetToCurrentTime "bitcoin" "guild",
        Call.updateStatusComplex (some 0)
          (newUpdateStatusData 0 ActivityTypeWatching "+1.00 % | BTCUSD" ""),
        Call.lastUpdateSetToCurrentTime "bitcoin" "None",
        Call.updateStatusComplex (some 1)
          (newUpdateStatusData 0 ActivityTypeWatching "+1.00 % | BTCUSD" ""),
        Call.lastUpdateSetToCurrentTime "bitcoin" "None",
        Call.sleep 10]) := by
  decide!

/-! ### A crypto pass whose price fetch fails -/

theorem hasPrefixChars_iff (pre cs : List Char) :
    hasPrefixChars pre cs = true ↔ ∃ b, cs = pre ++ b := by
  induction pre generalizing cs with
  | nil => simp [hasPrefixChars]
  | cons p pre ih =>
    cases cs with
    | nil => simp [hasPrefixChars]
    | cons c cs =>
      simp only [hasPrefixChars, Bool.and_eq_true, decide_eq_true_eq, ih, List.cons_append,
        List.cons.injEq]
      constructor
      · rintro ⟨rfl, b, rfl⟩
        exact ⟨b, rfl, rfl⟩
      · rintro ⟨b, rfl, rfl⟩
        exact ⟨rfl, b, rfl⟩

theorem containsChars_iff (sub cs : List Char) :
    containsChars sub cs = true ↔ ∃ a b, cs = a ++ sub ++ b := by
  induction cs with
  | nil =>
    simp only [containsChars, hasPrefixChars_iff]
    constructor
    · rintro ⟨b, hb⟩
      exact ⟨[], b, by simpa using hb⟩
    · rintro ⟨a, b, hab⟩
      have h : a = [] ∧ sub = [] ∧ b = [] := by
        simpa [List.append_eq_nil, and_assoc] using hab.symm
      exact ⟨[], by simp [h.2.1]⟩
  | cons c cs ih =>
    simp only [containsChars, Bool.or_eq_true, hasPrefixChars_iff, ih]
    constructor
    · rintro (⟨b, hb⟩ | ⟨a, b, hab⟩)
      · exact ⟨[], b, by simpa using hb⟩
      · exact ⟨c :: a, b, by simp [hab]⟩
    · rintro ⟨a, b, hab⟩
      cases a with
      | nil => exact Or.inl ⟨b, by simpa using hab⟩
      | cons x a =>
        simp only [List.cons_append, List.cons.injEq] at hab
        exact Or.inr ⟨a, b, by simpa using hab.2⟩

/-- C7: a crypto pass whose primary fetch returns an error, with or without
cache, issues the fetch and nothing else and leaves the watcher (cursor,
parity, decorator) as it was; the rate-limit counter goes up by one and the
update-error counter stays when the error text contains "rate limited", and
the other way round otherwise.  (With a cache the miss counter goes up too.) -/
theorem crypto_fetch_error_skips_tick (rdb : Bool) (ans : CryptoAnswers) (w : Watcher)
    (m : Metrics) (err : String) (hans : ans.price = Except.error err) :
    ∃ m',
      cryptoTick rdb ans w m = some (w, m', [cryptoFetchCall rdb w.s.Name]) ∧
      ((∃ a b, err.data = a ++ "rate limited".data ++ b) →
        m'.rateLimited = m.rateLimited + 1 ∧ m'.updateError = m.updateError) ∧
      ((¬ ∃ a b, err.data = a ++ "rate limited".data ++ b) →
        m'.rateLimited = m.rateLimited ∧ m'.updateError = m.updateError + 1) ∧
      m'.cacheHits = m.cacheHits ∧
      m'.cacheMisses = (if rdb then m.cacheMisses + 1 else m.cacheMisses) := by
  refine ⟨countFetchError err (countCache rdb true m), ?_, ?_, ?_, ?_, ?_⟩
  · simp only [cryptoTick, hans]
  · intro hc
    have hc' : stringsContains err "rate limited" = true :=
      (containsChars_iff _ _).mpr hc
    cases rdb <;> simp [countFetchError, countCache, hc']
  · intro hc
    have hc' : ¬ stringsContains err "rate limited" = true :=
      fun h => hc ((containsChars_iff _ _).mp h)
    cases rdb <;> simp [countFetchError, countCache, hc']
  · cases rdb <;> by_cases hc : stringsContains err "rate limited" = true <;>
      simp [countFetchError, countCache, hc]
  · cases rdb <;> by_cases hc : stringsContains err "rate limited" = true <;>
      simp [countFetchError, countCache, hc]

/-- C7 witness: a rate-limit error without cache, in mid-rotation. -/
theorem crypto_fetch_error_skips_tick_witness :
    ∃ m',
      cryptoTick false (sampleAnswers (Except.error "429: rate limited") (Except.error ""))
          { sampleWatcher with custom_activity := ["a", "b"], rot := ⟨1, 2⟩ } zeroMetrics =
        some ({ sampleWatcher with custom_activity := ["a", "b"], rot := ⟨1, 2⟩ }, m',
          [cryptoFetchCall false
            ({ sampleWatcher with custom_activity := ["a", "b"], rot := ⟨1, 2⟩ } : Watcher).s.Name]) ∧
      ((∃ a b, "429: rate limited".data = a ++ "rate limited".data ++ b) →
        m'.rateLimited = zeroMetrics.rateLimited + 1 ∧
          m'.updateError = zeroMetrics.updateError) ∧
      ((¬ ∃ a b, "429: rate limited".data = a ++ "rate limited".data ++ b) →
        m'.rateLimited = zeroMetrics.rateLimited ∧
          m'.updateError = zeroMetrics.updateError + 1) ∧
      m'.cacheHits = zeroMetrics.cacheHits ∧
      m'.cacheMisses = (if false then zeroMetrics.cacheMisses + 1 else zeroMetrics.cacheMisses) :=
  crypto_fetch_error_skips_tick false
    (sampleAnswers (Except.error "429: rate limited") (Except.error ""))
    { sampleWatcher with custom_activity := ["a", "b"], rot := ⟨1, 2⟩ } zeroMetrics
    "429: rate limited" rfl

/-! ### The pair ratio -/

/-- C8 at its failing input: no decimals override, pair configured, flip off,
primary price 0.005 and pair price 1.  The ratio shown is 0.50, a hundred
times primary/pair, because the price had been overwritten by its value in
cents; primary/pair is 0.0050, which is what the pass shows under a decimals
override. -/
theorem crypto_pair_ratio_evaluation :
    (cryptoTick false
        (sampleAnswers (Except.ok ⟨"btc", 5 / 1000, 0, 0⟩) (Except.ok ⟨"eth", 1, 0, 0⟩))
        { sampleWatcher with s := { sampleTicker with Pair := "ethereum" } }
        zeroMetrics).map (fun r => r.2.2) =
      some
        [Call.getCryptoPrice "bitcoin",
          Call.getCryptoPrice "ethereum",
          Call.guildMemberNickname "1" "0.500000¢ USD",
          Call.lastUpdateSetToCurrentTime "bitcoin" "guild",
          Call.updateStatusComplex (some 0)
            (newUpdateStatusData 0 ActivityTypeWatching "0.50 BTC/ETH" ""),
          Call.lastUpdateSetToCurrentTime "bitcoin" "None",
          Call.sleep 10] ∧
    pairActivity false "BTC" (convert 1 ⟨"btc", 5 / 1000, 0, 0⟩) ⟨"eth", 1, 0, 0⟩ =
      "0.0050 BTC/ETH" ∧
    (cryptoTick false
        (sampleAnswers (Except.ok ⟨"btc", 5 / 1000, 0, 0⟩) (Except.ok ⟨"eth", 1, 0, 0⟩))
        { sampleWatcher with s := { sampleTicker with Pair := "ethereum", Decimals := 3 } }
        zeroMetrics).map (fun r => r.2.2) =
      some
        [Call.getCryptoPrice "bitcoin",
          Call.getCryptoPrice "ethereum",
          Call.guildMemberNickname "1" "0.005 USD",
          Call.lastUpdateSetToCurrentTime "bitcoin" "guild",
          Call.updateStatusComplex (some 0)
            (newUpdateStatusData 0 ActivityTypeWatching "0.0050 BTC/ETH" ""),
          Call.lastUpdateSetToCurrentTime "bitcoin" "None",
          Call.sleep 10] := by
  decide!

/-! ### Direction and decorator -/

theorem rotate_in_range (m : List String) (r : Rotator) (activity : String)
    (h : r.itr ≤ m.length) : rotate m r activity ≠ none := by
  unfold rotate
  by_cases hpos : m.length > 0
  · by_cases hend : r.itr = m.length
    · simp only [hpos, if_true, hend]
      exact Option.some_ne_none _
    · have hlt : r.itr < m.length := by omega
      by_cases hodd : r.itrSeed % 2 = 1
      · simp only [hpos, if_true, hend, if_false, hodd, List.getElem?_eq_getElem hlt]
        exact Option.some_ne_none _
      · simp only [hpos, if_true, hend, if_false, hodd, List.getElem?_eq_getElem hlt]
        exact Option.some_ne_none _
  · simp only [hpos, if_false]
    exact Option.some_ne_none _

theorem setArrows_decorator (increase : Bool) (s : Ticker) :
    (setArrows true increase s).Decorator = if increase = true then "⬈" else "⬊" := by
  cases increase <;> simp [setArrows]

theorem increaseOf_iff (fmtChange : String) :
    increaseOf fmtChange = true ↔ (fmtChange = "" ∨ fmtChange.data.head? ≠ some '-') := by
  obtain ⟨cs⟩ := fmtChange
  cases cs with
  | nil => simp [increaseOf]
  | cons c cs =>
    have hne : ∀ x : Char, (⟨x :: cs⟩ : String) ≠ "" := by
      intro x h
      have := congrArg String.data h
      simp at this
    by_cases hc : c = '-'
    · simp [increaseOf, hc, hne]
    · simp [increaseOf, hc, hne]

theorem cryptoRender_decorator (rdb : Bool) (ans : CryptoAnswers) (w : Watcher) (m : Metrics)
    (priceData : GeckoPriceResults) (harrows : w.arrows = true)
    (hrot : w.rot.itr ≤ w.custom_activity.length) :
    ∃ w' m' calls,
      cryptoRender rdb ans w m priceData = some (w', m', calls) ∧
      w'.s.Decorator =
        if increaseOf (sprintfFloat 2 priceData.PriceChangeCurrencyUSD) = true
        then "⬈" else "⬊" := by
  unfold cryptoRender
  dsimp only
  by_cases hnick : (setArrows w.arrows
      (increaseOf (sprintfFloat 2 priceData.PriceChangeCurrencyUSD)) w.s).Nickname = true
  · rw [if_pos hnick]
    split
    · next hnone => exact absurd hnone (rotate_in_range _ _ _ hrot)
    · next shown r' hsome =>
      exact ⟨_, _, _, rfl, by simp only [harrows, setArrows_decorator]⟩
  · rw [if_neg hnick]
    exact ⟨_, _, _, rfl, by simp only [harrows, setArrows_decorator]⟩

theorem stockTick_decorator (ans : StockAnswers) (w : Watcher) (fetch : List Call)
    (q : StockQuote)
    (hq : (if w.s.TwelveDataKey ≠ "" then twelveDataQuote w.s ans else yahooQuote w.s ans) =
      (fetch, Fetched.quote q))
    (harrows : w.arrows = true) (hrot : w.rot.itr ≤ w.custom_activity.length) :
    ∃ w' calls,
      stockTick ans w = some (w', calls) ∧
      w'.s.Decorator = if increaseOf q.fmtDiffChange = true then "⬈" else "⬊" := by
  unfold stockTick
  simp only [hq]
  by_cases hnick : (setArrows w.arrows (increaseOf q.fmtDiffChange) w.s).Nickname = true
  · rw [if_pos hnick]
    split
    · next hnone => exact absurd hnone (rotate_in_range _ _ _ hrot)
    · next shown r' hsome =>
      exact ⟨_, _, rfl, by simp only [harrows, setArrows_decorator]⟩
  · rw [if_neg hnick]
    exact ⟨_, _, rfl, by simp only [harrows, setArrows_decorator]⟩

theorem cryptoExrate_decorator (s : Ticker) (exData : Except String (List ℚ)) :
    (cryptoExrate s exData).2.Decorator = s.Decorator := by
  unfold cryptoExrate
  split_ifs
  · split
    · rfl
    · split <;> rfl
  · rfl

theorem stockExrate_decorator (s : Ticker) (exData : Except String (List ℚ)) :
    (stockExrate s exData).2.Decorator = s.Decorator := by
  unfold stockExrate
  split_ifs
  · split
    · rfl
    · split <;> rfl
  · rfl

theorem cryptoStart_arrows (s : Ticker) (env : CryptoStart) (calls : List Call) (w : Watcher)
    (h : cryptoStart s env = (calls, some w)) : (w.arrows = true ↔ s.Decorator = "") := by
  unfold cryptoStart at h
  split at h
  · simp at h
  · split at h
    · simp at h
    · split_ifs at h
      · simp at h
      all_goals
        simp only [Prod.mk.injEq, Option.some.injEq] at h
        rw [← h.2]
        simp only [cryptoExrate_decorator]
        split_ifs <;> simp_all

theorem stockStart_arrows (s : Ticker) (env : StockStart) (calls : List Call) (w : Watcher)
    (h : stockStart s env = (calls, some w)) : (w.arrows = true ↔ s.Decorator = "") := by
  unfold stockStart at h
  split at h
  · simp at h
  · split at h
    · simp at h
    · simp only [Prod.mk.injEq, Option.some.injEq] at h
      rw [← h.2]
      simp only [stockExrate_decorator]
      split_ifs <;> simp_all

/-- C9: on both paths the direction flag is true exactly when the change
string is empty or its first character is not `-`; a crypto change of -0.001
formats to `-0.00` and gives `increase = false`; on the equities path a change
whose text starts with `-` gives `false` even when its number is positive; and
a watcher started without custom decorator (`arrows`) leaves every pass that
reads a quote with the up glyph when `increase` is true and with the down
glyph otherwise. -/
theorem direction_from_change_string :
    (∀ fmtChange : String,
      increaseOf fmtChange = true ↔ (fmtChange = "" ∨ fmtChange.data.head? ≠ some '-')) ∧
    (sprintfFloat 2 (-1 / 1000) = "-0.00" ∧ increaseOf (sprintfFloat 2 (-1 / 1000)) = false) ∧
    (∀ (s : Ticker) (env : CryptoStart) (calls : List Call) (w : Watcher),
      cryptoStart s env = (calls, some w) → (w.arrows = true ↔ s.Decorator = "")) ∧
    (∀ (s : Ticker) (env : StockStart) (calls : List Call) (w : Watcher),
      stockStart s env = (calls, some w) → (w.arrows = true ↔ s.Decorator = "")) ∧
    (∀ (rdb : Bool) (ans : CryptoAnswers) (w : Watcher) (m : Metrics)
        (raw : GeckoPriceResults),
      ans.price = Except.ok raw → w.arrows = true → w.rot.itr ≤ w.custom_activity.length →
      ∃ w' m' calls,
        cryptoTick rdb ans w m = some (w', m', calls) ∧
        w'.s.Decorator =
          if increaseOf (sprintfFloat 2 (convert w.s.Exrate raw).PriceChangeCurrencyUSD) = true
          then "⬈" else "⬊") ∧
    (∀ (ans : StockAnswers) (w : Watcher) (fetch : List Call) (q : StockQuote),
      (if w.s.TwelveDataKey ≠ "" then twelveDataQuote w.s ans else yahooQuote w.s ans) =
        (fetch, Fetched.quote q) →
      w.arrows = true → w.rot.itr ≤ w.custom_activity.length →
      ∃ w' calls,
        stockTick ans w = some (w', calls) ∧
        w'.s.Decorator = if increaseOf q.fmtDiffChange = true then "⬈" else "⬊") := by
  refine ⟨increaseOf_iff, ⟨by decide!, by decide!⟩, cryptoStart_arrows, stockStart_arrows,
    ?_, stockTick_decorator⟩
  intro rdb ans w m raw hans harrows hrot
  simp only [cryptoTick, hans]
  exact cryptoRender_decorator rdb ans w _ _ harrows hrot

/-- C9 witness: a crypto pass on a quote whose change is -0.001, and an
equities pass on a quote whose change text is `-0.00`. -/
theorem direction_from_change_string_witness :
    (∃ w' m' calls,
      cryptoTick false (sampleAnswers (Except.ok ⟨"btc", 100, -1 / 1000, 0⟩) (Except.error ""))
        sampleWatcher zeroMetrics = some (w', m', calls) ∧
      w'.s.Decorator =
        if increaseOf (sprintfFloat 2
          (convert sampleWatcher.s.Exrate ⟨"btc", 100, -1 / 1000, 0⟩).PriceChangeCurrencyUSD) = true
        then "⬈" else "⬊") ∧
    (increaseOf "-0.00" = true ↔
      (("-0.00" : String) = "" ∨ ("-0.00" : String).data.head? ≠ some '-')) :=
  ⟨direction_from_change_string.2.2.2.2.1 false
      (sampleAnswers (Except.ok ⟨"btc", 100, -1 / 1000, 0⟩) (Except.error ""))
      sampleWatcher zeroMetrics ⟨"btc", 100, -1 / 1000, 0⟩ rfl rfl (by decide),
    direction_from_change_string.1 "-0.00"⟩

/-! ### The time-series provider on the equities path -/

theorem yahooQuote_ne_panic (s : Ticker) (ans : StockAnswers) :
    (yahooQuote s ans).2 ≠ Fetched.panic := by
  unfold yahooQuote
  split
  · simp
  · split
    · simp
    · dsimp only
      split_ifs <;> simp

theorem twelveDataQuote_panic_iff (s : Ticker) (ans : StockAnswers) :
    (twelveDataQuote s ans).2 = Fetched.panic ↔
      ∃ first rest only nowRaw,
        ans.minute = Except.ok (first :: rest) ∧ ans.day = Except.ok [only] ∧
        ans.parseFloat first.Close = Except.ok nowRaw := by
  unfold twelveDataQuote
  dsimp only
  cases hmin : ans.minute with
  | error e => simp
  | ok minuteValues =>
    cases minuteValues with
    | nil => simp
    | cons first rest =>
      cases hday : ans.day with
      | error e => simp
      | ok dayValues =>
        cases dayValues with
        | nil => simp
        | cons d ds =>
          cases hnow : ans.parseFloat first.Close with
          | error e => simp [hnow]
          | ok nowRaw =>
            cases ds with
            | nil => simp [hnow]
            | cons d2 ds2 =>
              cases hclose : ans.parseFloat d2.Close with
              | error e => simp [hnow, hclose]
              | ok closeRaw => simp [hnow, hclose]

theorem stockTick_none_only_on_single_day_value (ans : StockAnswers) (w : Watcher)
    (hrot : w.rot.itr ≤ w.custom_activity.length) (hnone : stockTick ans w = none) :
    w.s.TwelveDataKey ≠ "" ∧
    ∃ first rest only nowRaw,
      ans.minute = Except.ok (first :: rest) ∧ ans.day = Except.ok [only] ∧
      ans.parseFloat first.Close = Except.ok nowRaw := by
  have hpanic : (if w.s.TwelveDataKey ≠ "" then twelveDataQuote w.s ans
      else yahooQuote w.s ans).2 = Fetched.panic := by
    unfold stockTick at hnone
    dsimp only at hnone
    split at hnone
    · assumption
    · exact absurd hnone (Option.some_ne_none _)
    · exfalso
      split at hnone
      · split at hnone
        · next hr => exact rotate_in_range _ _ _ hrot hr
        · exact absurd hnone (Option.some_ne_none _)
      · exact absurd hnone (Option.some_ne_none _)
  by_cases hkey : w.s.TwelveDataKey ≠ ""
  · rw [if_pos hkey] at hpanic
    exact ⟨hkey, (twelveDataQuote_panic_iff _ _).mp hpanic⟩
  · rw [if_neg hkey] at hpanic
    exact absurd hpanic (yahooQuote_ne_panic _ _)

/-- C11 at its failing input: a minute series with one value and a day series
holding exactly one value, both texts parsing.  The pass indexes the second
day value and panics, and so does the watcher; the same pass on a day series
of two values completes. -/
theorem twelve_data_single_day_value_evaluation :
    stockTick
      (sampleStockAnswers [⟨"201.00", "201.75"⟩] [⟨"199.00", "200.00"⟩])
      sampleStockWatcher = none ∧
    watchStockPrice sampleStockTicker sampleStockStart
      [StockEvent.tick
        (sampleStockAnswers [⟨"201.00", "201.75"⟩] [⟨"199.00", "200.00"⟩])] = none ∧
    (stockTick
      (sampleStockAnswers [⟨"201.00", "201.75"⟩]
        [⟨"201.00", "201.75"⟩, ⟨"199.00", "200.00"⟩])
      sampleStockWatcher).map (fun r => r.2) =
      some
        [Call.getTimeSeries "TSLA" "min" "key",
          Call.getTimeSeries "TSLA" "day" "key",
          Call.updateStatusComplex none
            (newUpdateStatusData 0 ActivityTypeWatching "201.75 ⬈ +0.88" ""),
          Call.lastUpdateSetToCurrentTime "TSLA" "None",
          Call.sleep 10] := by
  decide!

end DiscordStockTicker
